import Mathlib

/-!
Verification of the CloudWarden v3 AI analysis orchestration layer
(`cloudwarden/agent/explainer.py`).

The development shallowly embeds the agent: findings are string-keyed,
string-valued mappings (association lists), the inference server is an
environment mapping each generate call (by position and prompt) to either a
response text or a raised-exception message, and Python values decoded from
JSON are modelled by the inductive type `PyVal`.  Operations that can raise
in Python are embedded in the `Except Unit` monad; a top-level handler that
catches an exception corresponds to a `match` on that result.  Python string
operations (`strip`, `lower`, `split`, substring tests) are re-implemented
over `List Char` so that every definition evaluates inside the kernel.
Python floats appearing in the source (`0.85`, `0.3`) are modelled as
rationals.
-/

/-! ## Python string primitives -/

/-- Characters treated as whitespace by `str.strip()` (ASCII fragment). -/
def isWsChar (c : Char) : Bool := c == ' ' || c == '\t' || c == '\n' || c == '\r'

/-- Python `str.strip()` with no argument: drop whitespace from both ends. -/
def pyStrip (s : String) : String :=
  ⟨((s.data.dropWhile isWsChar).reverse.dropWhile isWsChar).reverse⟩

/-- Python `str.lower()` (ASCII letters). -/
def pyLower (s : String) : String := ⟨s.data.map Char.toLower⟩

/-- Split a character list at newline characters, Python `str.split` with
separator `chr 10`: the result always has one more part than there are
separators, so it is never empty. -/
def splitNl : List Char → List (List Char)
  | [] => [[]]
  | c :: rest =>
    if c == '\n' then [] :: splitNl rest
    else
      match splitNl rest with
      | [] => [[c]]
      | h :: t => (c :: h) :: t

/-- Python `str.split(chr 10)` on strings. -/
def pyLines (s : String) : List String := (splitNl s.data).map (fun l => ⟨l⟩)

/-- Substring occurrence test on character lists. -/
def containsSub (n : List Char) : List Char → Bool
  | [] => n.isEmpty
  | c :: t => n.isPrefixOf (c :: t) || containsSub n t

/-- Python `needle in hay` for strings. -/
def pyIn (needle hay : String) : Bool := containsSub needle.data hay.data

/-- Python `str.startswith`. -/
def pyStartsWith (s p : String) : Bool := p.data.isPrefixOf s.data

/-- Kernel-reducible replacement for `String.intercalate`. -/
def joinSep (sep : String) : List String → String
  | [] => ""
  | [x] => x
  | x :: xs => x ++ sep ++ joinSep sep xs

/-- A single-quote character as a string (used by the Python `repr` of
string dictionaries). -/
def squote : String := String.singleton (Char.ofNat 39)

/-! ## Python values decoded from JSON -/

/-- Values produced by `json.loads`: JSON null, booleans, numbers
(mantissa times a power of ten), strings, arrays and objects.
Python `None` is likewise modelled by `null`. -/
inductive PyVal where
  | null
  | bool (b : Bool)
  | num (mant : Int) (exp10 : Int)
  | str (s : String)
  | list (xs : List PyVal)
  | dict (fs : List (String × PyVal))

/-- Python truthiness of a `PyVal`. -/
def PyVal.truthy : PyVal → Bool
  | .null => false
  | .bool b => b
  | .num m _ => m != 0
  | .str s => s != ""
  | .list xs => !xs.isEmpty
  | .dict fs => !fs.isEmpty

/-- Numeric equality of two mantissa-exponent pairs. -/
def numEqRaw (m e m2 e2 : Int) : Bool :=
  if e ≥ e2 then m * 10 ^ (e - e2).toNat == m2 else m == m2 * 10 ^ (e2 - e).toNat

/-- Python `==` on decoded values: numbers compare numerically, booleans
compare with numbers as 0 and 1, containers compare structurally. -/
def PyVal.pyEq : PyVal → PyVal → Bool
  | .null, .null => true
  | .bool a, .bool b => a == b
  | .bool a, .num m e => numEqRaw (if a then 1 else 0) 0 m e
  | .num m e, .bool b => numEqRaw m e (if b then 1 else 0) 0
  | .num m e, .num m2 e2 => numEqRaw m e m2 e2
  | .str a, .str b => a == b
  | .list xs, .list ys => eqList xs ys
  | .dict fs, .dict gs => eqDict fs gs
  | _, _ => false
where
  eqList : List PyVal → List PyVal → Bool
    | [], [] => true
    | x :: xs, y :: ys => PyVal.pyEq x y && eqList xs ys
    | _, _ => false
  eqDict : List (String × PyVal) → List (String × PyVal) → Bool
    | [], [] => true
    | (k, v) :: xs, (k2, v2) :: ys => k == k2 && PyVal.pyEq v v2 && eqDict xs ys
    | _, _ => false

instance : BEq PyVal := ⟨PyVal.pyEq⟩

/-- Python `dict.get(k)` (default `None`).  Later bindings win, matching the
construction order of a Python dict. -/
def pyDictGet (fs : List (String × PyVal)) (k : String) : PyVal :=
  match fs.reverse.find? (fun kv => kv.1 == k) with
  | some kv => kv.2
  | Option.none => PyVal.null

/-- Python `dict.get(k, d)`. -/
def pyDictGetD (fs : List (String × PyVal)) (k : String) (d : PyVal) : PyVal :=
  match fs.reverse.find? (fun kv => kv.1 == k) with
  | some kv => kv.2
  | Option.none => d

/-- Predicate: the decoded value is a JSON object. -/
def PyVal.isDict : PyVal → Bool
  | .dict _ => true
  | _ => false

/-! ## A JSON decoder (`json.loads`)

Fuel-based recursive-descent parser over `List Char`, accepting the JSON
grammar: literals, numbers (with fraction and exponent, no leading zeros),
strings with the standard escapes, arrays and objects. -/

/-- Skip JSON insignificant whitespace. -/
def jskipWs : List Char → List Char
  | [] => []
  | c :: cs => if c == ' ' || c == '\t' || c == '\n' || c == '\r' then jskipWs cs else c :: cs

/-- Value of a hexadecimal digit. -/
def hexVal (c : Char) : Option Nat :=
  if c.isDigit then some (c.toNat - 48)
  else if 'a' ≤ c ∧ c ≤ 'f' then some (c.toNat - 87)
  else if 'A' ≤ c ∧ c ≤ 'F' then some (c.toNat - 55)
  else Option.none

/-- Parse the body of a JSON string after the opening quote, with an
accumulator of characters seen so far (in reverse). -/
def parseStrBody : List Char → List Char → Option (String × List Char)
  | acc, '"' :: rest => some (⟨acc.reverse⟩, rest)
  | acc, '\\' :: '"' :: r => parseStrBody ('"' :: acc) r
  | acc, '\\' :: '\\' :: r => parseStrBody ('\\' :: acc) r
  | acc, '\\' :: '/' :: r => parseStrBody ('/' :: acc) r
  | acc, '\\' :: 'b' :: r => parseStrBody ('\x08' :: acc) r
  | acc, '\\' :: 'f' :: r => parseStrBody ('\x0c' :: acc) r
  | acc, '\\' :: 'n' :: r => parseStrBody ('\n' :: acc) r
  | acc, '\\' :: 'r' :: r => parseStrBody ('\r' :: acc) r
  | acc, '\\' :: 't' :: r => parseStrBody ('\t' :: acc) r
  | acc, '\\' :: 'u' :: a :: b :: c :: d :: r =>
    match hexVal a, hexVal b, hexVal c, hexVal d with
    | some x, some y, some z, some w =>
      let n := ((x * 16 + y) * 16 + z) * 16 + w
      if 0xd800 ≤ n ∧ n ≤ 0xdfff then Option.none
      else parseStrBody (Char.ofNat n :: acc) r
    | _, _, _, _ => Option.none
  | _, '\\' :: _ => Option.none
  | acc, c :: rest => if c.toNat < 32 then Option.none else parseStrBody (c :: acc) rest
  | _, [] => Option.none

/-- Digits to a natural number. -/
def digitsToNat (l : List Char) : Nat := l.foldl (fun n c => n * 10 + (c.toNat - 48)) 0

/-- Parse a JSON number starting at the given characters. -/
def parseJsonNum (l : List Char) : Option (PyVal × List Char) :=
  let signSplit : Bool × List Char :=
    match l with
    | '-' :: r => (true, r)
    | _ => (false, l)
  let neg := signSplit.1
  let l1 := signSplit.2
  let ip := l1.takeWhile Char.isDigit
  let r1 := l1.dropWhile Char.isDigit
  if ip.isEmpty then Option.none
  else if ip.length > 1 && ip.head? == some '0' then Option.none
  else
    let fracSplit : Option (List Char × List Char) :=
      match r1 with
      | '.' :: r =>
        let fp := r.takeWhile Char.isDigit
        if fp.isEmpty then Option.none else some (fp, r.dropWhile Char.isDigit)
      | _ => some ([], r1)
    match fracSplit with
    | Option.none => Option.none
    | some (fp, r2) =>
      let expSplit : Option (Int × List Char) :=
        match r2 with
        | 'e' :: r3 => parseJsonExp r3
        | 'E' :: r3 => parseJsonExp r3
        | _ => some (0, r2)
      match expSplit with
      | Option.none => Option.none
      | some (ex, rest) =>
        let mantNat := digitsToNat ip * 10 ^ fp.length + digitsToNat fp
        let mant : Int := if neg then -(mantNat : Int) else (mantNat : Int)
        some (PyVal.num mant (ex - fp.length), rest)
where
  parseJsonExp (r3 : List Char) : Option (Int × List Char) :=
    let esplit : Bool × List Char :=
      match r3 with
      | '-' :: r => (true, r)
      | '+' :: r => (false, r)
      | _ => (false, r3)
    let ed := esplit.2.takeWhile Char.isDigit
    if ed.isEmpty then Option.none
    else
      some ((if esplit.1 then -(digitsToNat ed : Int) else (digitsToNat ed : Int)),
        esplit.2.dropWhile Char.isDigit)

mutual

/-- Parse one JSON value. -/
def parseJsonVal : Nat → List Char → Option (PyVal × List Char)
  | 0, _ => Option.none
  | fuel + 1, l =>
    match l with
    | [] => Option.none
    | c :: cs =>
      if c == '{' then parseObjBody fuel (jskipWs cs)
      else if c == '[' then parseArrBody fuel (jskipWs cs)
      else if c == '"' then
        match parseStrBody [] cs with
        | some (s, r) => some (PyVal.str s, r)
        | Option.none => Option.none
      else if c == 't' then
        if ['r', 'u', 'e'].isPrefixOf cs then some (PyVal.bool true, cs.drop 3) else Option.none
      else if c == 'f' then
        if ['a', 'l', 's', 'e'].isPrefixOf cs then some (PyVal.bool false, cs.drop 4)
        else Option.none
      else if c == 'n' then
        if ['u', 'l', 'l'].isPrefixOf cs then some (PyVal.null, cs.drop 3) else Option.none
      else if c == '-' || c.isDigit then parseJsonNum l
      else Option.none

/-- Parse an object body after the opening brace (whitespace skipped). -/
def parseObjBody : Nat → List Char → Option (PyVal × List Char)
  | 0, _ => Option.none
  | fuel + 1, l =>
    match l with
    | '}' :: rest => some (PyVal.dict [], rest)
    | _ => parseObjItems fuel [] l

/-- Parse the members of a non-empty object. -/
def parseObjItems : Nat → List (String × PyVal) → List Char → Option (PyVal × List Char)
  | 0, _, _ => Option.none
  | fuel + 1, acc, l =>
    match l with
    | '"' :: cs =>
      match parseStrBody [] cs with
      | Option.none => Option.none
      | some (k, r1) =>
        match jskipWs r1 with
        | ':' :: r2 =>
          match parseJsonVal fuel (jskipWs r2) with
          | Option.none => Option.none
          | some (v, r3) =>
            match jskipWs r3 with
            | ',' :: r4 =>
              match jskipWs r4 with
              | r5 => parseObjItems fuel (acc ++ [(k, v)]) r5
            | '}' :: r4 => some (PyVal.dict (acc ++ [(k, v)]), r4)
            | _ => Option.none
        | _ => Option.none
    | _ => Option.none

/-- Parse an array body after the opening bracket (whitespace skipped). -/
def parseArrBody : Nat → List Char → Option (PyVal × List Char)
  | 0, _ => Option.none
  | fuel + 1, l =>
    match l with
    | ']' :: rest => some (PyVal.list [], rest)
    | _ => parseArrItems fuel [] l

/-- Parse the elements of a non-empty array. -/
def parseArrItems : Nat → List PyVal → List Char → Option (PyVal × List Char)
  | 0, _, _ => Option.none
  | fuel + 1, acc, l =>
    match parseJsonVal fuel l with
    | Option.none => Option.none
    | some (v, r1) =>
      match jskipWs r1 with
      | ',' :: r2 => parseArrItems fuel (acc ++ [v]) (jskipWs r2)
      | ']' :: r2 => some (PyVal.list (acc ++ [v]), r2)
      | _ => Option.none

end

/-- Python `json.loads`: decode the whole string as one JSON value, or fail. -/
def jsonLoads (s : String) : Option PyVal :=
  match parseJsonVal (2 * s.data.length + 8) (jskipWs s.data) with
  | some (v, rest) => if (jskipWs rest).isEmpty then some v else Option.none
  | Option.none => Option.none

/-! ## Data model -/

/-- Container for AI-generated analysis results (`AIAnalysis` dataclass). -/
structure AIAnalysis where
  business_impact : String
  technical_explanation : String
  remediation_steps : List String
  risk_factors : List String
  confidence_score : ℚ
deriving DecidableEq

/-- The `ai_agent` section of the configuration (`AIAgentConfig` dataclass).
`fallback_model` is optional because the source reads it with
`getattr(..., default None)`. -/
structure AIAgentConfig where
  enabled : Bool
  model : String
  fallback_model : Option String
  ollama_base_url : String
  temperature : ℚ
  timeout_seconds : Nat
deriving DecidableEq

/-- Mutable state of `CloudWardenAIAgent`: the `available` flag and whether
`ollama_client` has been set (client construction is modelled by a flag). -/
structure Agent where
  available : Bool
  hasClient : Bool
deriving DecidableEq

/-- `CloudWardenAIAgent.is_available`. -/
def is_available (ag : Agent) : Bool := ag.available && ag.hasClient

/-- A security finding: a string-keyed, string-valued mapping with the keys
in insertion order (the well-formed inputs of `analyze_finding`). -/
def Finding := List (String × String)

/-- Python `finding.get(k)` as an option. -/
def findingGet? (f : Finding) (k : String) : Option String :=
  (f.find? (fun kv => kv.1 == k)).map (fun kv => kv.2)

/-- Python `finding.get(k, d)`. -/
def findingGetD (f : Finding) (k d : String) : String := (findingGet? f k).getD d

/-- Python `str(finding)` for a string-valued dict:
`repr` with single-quoted keys and values. -/
def pyStrDict (f : Finding) : String :=
  "\x7b" ++
    joinSep ", "
      (f.map (fun kv => squote ++ kv.1 ++ squote ++ ": " ++ squote ++ kv.2 ++ squote)) ++
  "\x7d"

/-- Escape one character as inside a `json.dumps` string literal. -/
def jsonEscapeChar (c : Char) : List Char :=
  if c == '"' then ['\\', '"']
  else if c == '\\' then ['\\', '\\']
  else if c == '\n' then ['\\', 'n']
  else if c == '\t' then ['\\', 't']
  else if c == '\r' then ['\\', 'r']
  else [c]

/-- A `json.dumps` string literal (`ensure_ascii=False`). -/
def jsonQuote (s : String) : String :=
  "\"" ++ (⟨s.data.foldr (fun c acc => jsonEscapeChar c ++ acc) []⟩ : String) ++ "\""

/-- Python `json.dumps(finding, ensure_ascii=False)` for a string-valued
dict. -/
def jsonDumpsFinding (f : Finding) : String :=
  "\x7b" ++ joinSep ", " (f.map (fun kv => jsonQuote kv.1 ++ ": " ++ jsonQuote kv.2)) ++ "\x7d"

/-! ## The inference server environment -/

/-- Outcome of one `ollama` generate call: the `response` field of the
returned mapping (the empty string also covers a missing or `None` field),
or the message of a raised exception (transport error, timeout,
non-success response). -/
inductive GenResult where
  | ok (response : String)
  | err (msg : String)

/-- Behaviour of the inference server for one `analyze_finding` request:
the outcome of the i-th generate call, given the prompt sent.  Call 0 is
the combined-strategy call; calls 1, 2, 3 are the decomposed
business-impact, technical-explanation and remediation calls. -/
def Server := Nat → String → GenResult

/-- Environment of `_initialize_ollama`: the `ollama` import may be absent,
the registry probe may raise, or it returns a status code together with the
outcome of `response.json()` (`Option.none` models a raised decode error). -/
inductive InitEnv where
  | noOllamaLib
  | requestRaised (msg : String)
  | response (status : Nat) (body : Option PyVal)

/-! ## Prompt builders -/

/-- Prompt of `_analyze_combined` (the surrounding f-string after
`.strip()`). -/
def combined_prompt (f : Finding) : String :=
  "You are a cloud security assistant. Given the finding below, return a JSON object with keys:\n        - business_impact (<=80 words)\n        - technical_explanation (<=120 words)\n        - remediation_steps (array of 3-5 short steps)\n        - risk_factors (array of short phrases)\n\n        Finding:\n        " ++
    jsonDumpsFinding f ++
  "\n\n        Return ONLY JSON, no preamble or backticks."

/-- Prompt of `_generate_business_impact`. -/
def business_impact_prompt (f : Finding) : String :=
  "Explain the business impact of this security finding in simple terms:\n\n        Type: " ++
    findingGetD f "type" "Security Issue" ++
  "\n        Severity: " ++ findingGetD f "severity" "Unknown" ++
  "\n        Resource: " ++ findingGetD f "resource_id" "Unknown" ++
  "\n\n        Focus on: financial impact, operational risk, and compliance concerns.\n        Keep it under 80 words. Be concise and non-technical."

/-- Prompt of `_generate_technical_explanation`. -/
def technical_explanation_prompt (f : Finding) : String :=
  "Provide a technical explanation of this security vulnerability:\n\n        Type: " ++
    findingGetD f "type" "Security Issue" ++
  "\n        Details: " ++ findingGetD f "description" "No details available" ++
  "\n\n        Explain: what it is, how it could be exploited, why it" ++ squote ++
  "s dangerous.\n        Keep it under 120 words. Be concise."

/-- Prompt of `_generate_remediation_steps`. -/
def remediation_steps_prompt (f : Finding) : String :=
  "Provide step-by-step remediation for this security issue:\n\n        Type: " ++
    findingGetD f "type" "Security Issue" ++
  "\n        Resource: " ++ findingGetD f "resource_id" "Unknown" ++
  "\n\n        Return 3-5 short, numbered steps that can be followed directly."

/-! ## Inference client -/

/-- `_query_ai`: returns the stripped response text; a raised exception is
caught and converted to the sentinel text `AI analysis failed: ...`; when
the agent is unavailable a fixed sentinel is returned without any call. -/
def query_ai (ag : Agent) (r : GenResult) : String :=
  if is_available ag then
    match r with
    | .ok s => pyStrip s
    | .err e => "AI analysis failed: " ++ e
  else "AI analysis not available"

/-! ## Response interpreter -/

/-- Characters stripped from the front of a recognized remediation line:
`lstrip` argument `0123456789.-•) ` of `_generate_remediation_steps`. -/
def stepMarkChars : List Char :=
  ['0', '1', '2', '3', '4', '5', '6', '7', '8', '9', '.', '-', '•', ')', ' ']

/-- Recognition of one response line in `_generate_remediation_steps`:
after stripping, a non-empty line whose first character is a digit, `-` or
a bullet glyph. -/
def lineQualifies (line : String) : Bool :=
  line != "" &&
    ((line.data.headD 'A').isDigit || pyStartsWith line "-" || pyStartsWith line "•")

/-- Leading numbering and marker characters removed, then stripped again. -/
def stripStepMarks (line : String) : String :=
  pyStrip ⟨line.data.dropWhile (fun c => stepMarkChars.contains c)⟩

/-- Line parsing of `_generate_remediation_steps`: each stripped line that
qualifies and whose remainder after marker removal is non-empty becomes a
step, in order; when no step survives, the whole raw response becomes the
single step. -/
def parse_steps (response : String) : List String :=
  let steps := (pyLines response).filterMap (fun raw =>
    let line := pyStrip raw
    if lineQualifies line then
      let step := stripStepMarks line
      if step != "" then some step else Option.none
    else Option.none)
  if !steps.isEmpty then steps else [response]

/-- The line parsing that the specification describes: every qualifying
line becomes a step (even when the marker removal leaves nothing), and the
raw response is substituted only when no line qualifies.  Stated for
comparison with `parse_steps`. -/
def parse_steps_claimed (response : String) : List String :=
  let steps := (pyLines response).filterMap (fun raw =>
    let line := pyStrip raw
    if lineQualifies line then some (stripStepMarks line) else Option.none)
  if !steps.isEmpty then steps else [response]

/-- The amended description of the line parsing, built as a
filter-and-map pipeline: trim each line, keep qualifying lines, strip
markers, discard steps that end up empty, and fall back to the raw
response when no step survives. -/
def parse_steps_amended (response : String) : List String :=
  let qual := ((pyLines response).map pyStrip).filter lineQualifies
  let steps := (qual.map stripStepMarks).filter (fun s => s != "")
  if !steps.isEmpty then steps else [response]

/-- `_identify_risk_factors`: a deterministic keyword scan over the
lower-cased string form of the finding plus a severity check.  The
sequential `append` calls of the source are modelled by list
concatenation. -/
def identify_risk_factors (f : Finding) : List String :=
  let text := pyLower (pyStrDict f)
  (if pyIn "wildcard" text || pyIn "*:*" text then ["Overly broad permissions"] else []) ++
  (if pyIn "public" text then ["Public internet exposure"] else []) ++
  (if pyIn "mfa" text then ["Multi-factor authentication issues"] else []) ++
  (if (["critical", "high"] : List String).contains (pyLower ((findingGet? f "severity").getD ""))
    then ["High severity security vulnerability"] else [])

/-- Python `(v or "").strip()` on a decoded value; calling `.strip()` on a
truthy non-string raises, which the `Except` error models. -/
def pyOrEmptyStrip (v : PyVal) : Except Unit String :=
  if v.truthy then
    match v with
    | .str s => Except.ok (pyStrip s)
    | _ => Except.error ()
  else Except.ok ""

/-- Python iteration over a decoded value: strings yield their characters,
lists their elements, dicts their keys; other values raise `TypeError`. -/
def pyIterVals : PyVal → Except Unit (List PyVal)
  | .str s => Except.ok (s.data.map (fun c => PyVal.str (String.singleton c)))
  | .list xs => Except.ok xs
  | .dict fs => Except.ok (fs.map (fun kv => PyVal.str kv.1))
  | _ => Except.error ()

/-- The body of `[s.strip() for s in ... if str(s).strip()]`: string
elements are kept stripped when non-blank; for any non-string element the
guard `str(s)` is a non-blank text, so `s.strip()` is evaluated and
raises. -/
def stripFilter : List PyVal → Except Unit (List String)
  | [] => Except.ok []
  | PyVal.str s :: rest =>
    if pyStrip s == "" then stripFilter rest
    else
      match stripFilter rest with
      | Except.ok r => Except.ok (pyStrip s :: r)
      | Except.error e => Except.error e
  | _ :: _ => Except.error ()

/-- Python `[s.strip() for s in (v or []) if str(s).strip()]`. -/
def pyListComp (v : PyVal) : Except Unit (List String) :=
  match (if v.truthy then pyIterVals v else Except.ok []) with
  | Except.ok elems => stripFilter elems
  | Except.error e => Except.error e

/-! ## Orchestrator -/

/-- `_analyze_combined`: one generate call (call 0), strict JSON decoding
of the raw text, field extraction with coercion; any decode error or
extraction exception is caught and reported as no result. -/
def analyze_combined (ag : Agent) (srv : Server) (f : Finding) : Option AIAnalysis :=
  let raw := query_ai ag (srv 0 (combined_prompt f))
  match jsonLoads raw with
  | Option.none => Option.none
  | some (PyVal.dict fs) =>
    match pyOrEmptyStrip (pyDictGet fs "business_impact"),
        pyOrEmptyStrip (pyDictGet fs "technical_explanation"),
        pyListComp (pyDictGet fs "remediation_steps"),
        pyListComp (pyDictGet fs "risk_factors") with
    | Except.ok bi, Except.ok te, Except.ok rs, Except.ok rf =>
      some (AIAnalysis.mk bi te rs rf 0.85)
    | _, _, _, _ => Option.none
  | some _ => Option.none

/-- The decomposed strategy: three sequential generate calls (calls 1-3)
plus the deterministic risk-factor scan, at confidence 0.85.  For
string-valued findings no statement of this path can raise, so the
enclosing `try` of `analyze_finding` never fires. -/
def analyze_decomposed (ag : Agent) (srv : Server) (f : Finding) : AIAnalysis :=
  { business_impact := query_ai ag (srv 1 (business_impact_prompt f))
    technical_explanation := query_ai ag (srv 2 (technical_explanation_prompt f))
    remediation_steps := parse_steps (query_ai ag (srv 3 (remediation_steps_prompt f)))
    risk_factors := identify_risk_factors f
    confidence_score := 0.85 }

/-- `_generate_fallback_analysis`: the deterministic synthetic analysis
used when no model is reachable. -/
def generate_fallback_analysis (f : Finding) : AIAnalysis :=
  let finding_type := findingGetD f "type" "Security Issue"
  let severity := findingGetD f "severity" "Medium"
  { business_impact :=
      "This " ++ severity ++ " severity " ++ finding_type ++
        " requires attention to maintain security posture."
    technical_explanation :=
      "Security issue detected: " ++ findingGetD f "description" "No details available"
    remediation_steps :=
      ["Review the security finding details",
       "Consult AWS security best practices",
       "Implement appropriate security controls",
       "Validate and test the remediation"]
    risk_factors := identify_risk_factors f
    confidence_score := 0.3 }

/-- `analyze_finding`: the public entry point.  Unavailable agent: the
synthetic fallback.  Otherwise the combined strategy, and if it reports no
result, the decomposed strategy. -/
def analyze_finding (ag : Agent) (srv : Server) (f : Finding) : AIAnalysis :=
  if is_available ag then
    match analyze_combined ag srv f with
    | some a => a
    | Option.none => analyze_decomposed ag srv f
  else generate_fallback_analysis f

/-- State-passing form of `analyze_finding`, returning the finding mapping
after the call: the source contains no statement that writes into the
finding, so the traversal returns it unchanged. -/
def analyze_finding_state (ag : Agent) (srv : Server) (f : Finding) : AIAnalysis × Finding :=
  (analyze_finding ag srv f, f)

/-! ## Model registry client (`_initialize_ollama`) -/

/-- Python `'name' in m` for a decoded value `m`: key membership for
dicts, substring test for strings, element membership for lists; a
non-container raises `TypeError`. -/
def pyContainsKeyName : PyVal → Except Unit Bool
  | .dict fs => Except.ok (fs.any (fun kv => kv.1 == "name"))
  | .str s => Except.ok (pyIn "name" s)
  | .list xs => Except.ok (xs.any (fun x => x == PyVal.str "name"))
  | _ => Except.error ()

/-- Python `m.get(k)` for the name field: only dicts have `.get`. -/
def pyGetNameField : PyVal → Except Unit PyVal
  | .dict fs => Except.ok (pyDictGet fs "name")
  | _ => Except.error ()

/-- The comprehension `[m.get('name') for m in available_models if 'name' in m]`. -/
def collectNames : List PyVal → Except Unit (List PyVal)
  | [] => Except.ok []
  | m :: rest =>
    match pyContainsKeyName m with
    | Except.error e => Except.error e
    | Except.ok c =>
      if c then
        match pyGetNameField m, collectNames rest with
        | Except.ok n, Except.ok r => Except.ok (n :: r)
        | Except.error e, _ => Except.error e
        | _, Except.error e => Except.error e
      else collectNames rest

/-- Extraction of the model-name list from `data.get('models', [])`. -/
def extractModelNames (availableModels : PyVal) : Except Unit (List PyVal) :=
  match pyIterVals availableModels with
  | Except.ok ms => collectNames ms
  | Except.error e => Except.error e

/-- `_initialize_ollama`: probe the registry endpoint, resolve a usable
model from the configured primary/fallback pair, record it in the
configuration and set availability.  Every failure is swallowed.  Returns
the agent state together with the configuration after the call. -/
def initialize_ollama (cfg : AIAgentConfig) (env : InitEnv) : Agent × AIAgentConfig :=
  match env with
  | .noOllamaLib => (⟨false, false⟩, cfg)
  | .requestRaised _ => (⟨false, false⟩, cfg)
  | .response status body =>
    if status == 200 then
      match body with
      | Option.none => (⟨false, true⟩, cfg)
      | some bj =>
        let data := if bj.truthy then bj else PyVal.dict []
        match data with
        | PyVal.dict fs =>
          match extractModelNames (pyDictGetD fs "models" (PyVal.list [])) with
          | Except.error _ => (⟨false, true⟩, cfg)
          | Except.ok modelNames =>
            let fbVal : PyVal :=
              match cfg.fallback_model with
              | some fb => PyVal.str fb
              | Option.none => PyVal.null
            let modelToUse : PyVal :=
              if modelNames.contains (PyVal.str cfg.model) then PyVal.str cfg.model
              else if modelNames.contains fbVal then fbVal
              else PyVal.null
            match modelToUse with
            | PyVal.str s =>
              if s != "" then (⟨true, true⟩, { cfg with model := s })
              else (⟨false, true⟩, cfg)
            | _ => (⟨false, true⟩, cfg)
        | _ => (⟨false, true⟩, cfg)
    else (⟨false, false⟩, cfg)

/-! ## Concrete fixtures (mirroring `test_ai_agent` in the source) -/

/-- The sample finding of the source's self-test. -/
def sampleFinding : Finding :=
  [("type", "iam_wildcard_policy"), ("severity", "High"),
   ("resource_id", "arn:aws:iam::123:role/test"),
   ("description", "IAM role has wildcard permissions")]

/-- An agent whose initialization succeeded. -/
def availableAgent : Agent := ⟨true, true⟩

/-- An agent whose initialization failed (server unreachable). -/
def unavailableAgent : Agent := ⟨false, false⟩

/-- A server state where every generate call raises a transport error. -/
def errServer : Server := fun _ _ => GenResult.err "connection refused"

/-- A valid combined-JSON payload with the `risk_factors` key absent. -/
def combinedPayloadText : String :=
  "\x7b\"business_impact\": \" BI text \", \"technical_explanation\": \"TE text\", \"remediation_steps\": [\"Step one\", \"2. Step two\"]\x7d"

/-- A server that answers the combined call with `combinedPayloadText`. -/
def jsonServer : Server :=
  fun i _ => if i == 0 then GenResult.ok combinedPayloadText else GenResult.err "late"

/-- A server that answers the combined call with a JSON array (valid JSON,
top-level not an object) and the decomposed calls with one numbered step. -/
def listServer : Server :=
  fun i _ => if i == 0 then GenResult.ok "[1, 2]" else GenResult.ok "1. Restrict the policy"

/-- A configuration whose primary model is not installed but whose
fallback is. -/
def sampleConfig : AIAgentConfig :=
  ⟨true, "c", some "b", "http://localhost:11434", 0.1, 120⟩

/-- The registry environment for a 200 response listing the given model
names. -/
def tagsEnv (names : List String) : InitEnv :=
  InitEnv.response 200
    (some (PyVal.dict
      [("models", PyVal.list (names.map (fun n => PyVal.dict [("name", PyVal.str n)])))]))

/-! ## Helper lemmas -/

theorem isPrefixOf_self_append (n t : List Char) : n.isPrefixOf (n ++ t) = true := by
  induction n with
  | nil => simp [List.isPrefixOf]
  | cons c cs ih => simp [List.isPrefixOf, ih]

theorem containsSub_append (n pre post : List Char) :
    containsSub n (pre ++ (n ++ post)) = true := by
  induction pre with
  | nil =>
    cases n with
    | nil => cases post <;> simp [containsSub]
    | cons c cs => simp [containsSub, isPrefixOf_self_append]
  | cons c cs ih => simp [containsSub, ih]

/-- The line parser never returns an empty step list. -/
theorem parse_steps_ne_nil (r : String) : parse_steps r ≠ [] := by
  unfold parse_steps
  dsimp only
  split
  · rename_i h
    intro hn
    rw [hn] at h
    simp at h
  · simp

/-- Any analysis reported by the combined strategy carries confidence 0.85. -/
theorem analyze_combined_confidence (ag : Agent) (srv : Server) (f : Finding)
    (a : AIAnalysis) (h : analyze_combined ag srv f = some a) :
    a.confidence_score = 0.85 := by
  unfold analyze_combined at h
  dsimp only at h
  split at h
  · exact absurd h (by simp)
  · split at h
    · rw [Option.some_inj] at h
      rw [← h]
    · exact absurd h (by simp)
  · exact absurd h (by simp)

/-- `(v or "").strip()` on a string value is just the stripped string. -/
theorem pyOrEmptyStrip_str (s : String) :
    pyOrEmptyStrip (PyVal.str s) = Except.ok (pyStrip s) := by
  by_cases h : s = ""
  · subst h; rfl
  · simp [pyOrEmptyStrip, PyVal.truthy, h]

/-- The list comprehension on a list of non-blank strings strips each
element. -/
theorem stripFilter_strs (rs : List String) (h : ∀ s ∈ rs, pyStrip s ≠ "") :
    stripFilter (rs.map PyVal.str) = Except.ok (rs.map pyStrip) := by
  induction rs with
  | nil => rfl
  | cons s rest ih =>
    have hs : pyStrip s ≠ "" := h s (by simp)
    have ih2 := ih (fun x hx => h x (by simp [hx]))
    simp only [List.map_cons, stripFilter, ih2]
    simp [hs]

/-- The list comprehension on a decoded array of non-blank strings. -/
theorem pyListComp_strs (rs : List String) (h : ∀ s ∈ rs, pyStrip s ≠ "") :
    pyListComp (PyVal.list (rs.map PyVal.str)) = Except.ok (rs.map pyStrip) := by
  cases rs with
  | nil => rfl
  | cons s rest =>
    simp only [pyListComp, PyVal.truthy, List.map_cons, List.isEmpty_cons, Bool.not_false,
      if_pos, pyIterVals]
    exact stripFilter_strs _ h

/-- An unavailable agent always produces the synthetic fallback. -/
theorem analyze_finding_of_unavailable (ag : Agent) (srv : Server) (f : Finding)
    (h : is_available ag = false) :
    analyze_finding ag srv f = generate_fallback_analysis f := by
  unfold analyze_finding
  simp [h]

/-- The inference-client error sentinel never decodes as JSON: it starts
with a letter no JSON value can start with, so the decoder fails on the
first character. -/
theorem jsonLoads_err_sentinel (e : String) :
    jsonLoads ("AI analysis failed: " ++ e) = Option.none := rfl

/-! ## Claims -/

/-- Claim C1: for every well-formed finding and every server state
(agent available or not, server answering or raising), `analyze_finding`
returns an analysis — it is a total function of the embedded state, every
internal failure being caught — and the confidence score signals the
tier: 0.85 for a model-derived result, 0.3 for the synthetic fallback. -/
theorem analyze_finding_total_confidence (ag : Agent) (srv : Server) (f : Finding) :
    (analyze_finding ag srv f).confidence_score = 0.85 ∨
      (analyze_finding ag srv f = generate_fallback_analysis f ∧
        (analyze_finding ag srv f).confidence_score = 0.3) := by
  by_cases h : is_available ag = true
  · unfold analyze_finding
    simp only [h, if_true]
    cases hc : analyze_combined ag srv f with
    | none => left; rfl
    | some a => left; exact analyze_combined_confidence ag srv f a hc
  · have hf : is_available ag = false := by
      cases hb : is_available ag
      · rfl
      · exact absurd hb h
    right
    rw [analyze_finding_of_unavailable ag srv f hf]
    exact ⟨rfl, rfl⟩

/-- Claim C2 (counterexample): with the agent unavailable and a finding
matching no keyword and carrying no severity, the returned analysis has an
empty `risk_factors` list — there is no one-element substitution for risk
factors anywhere in the code. -/
theorem risk_factors_can_be_empty :
    (analyze_finding unavailableAgent errServer []).risk_factors = [] := rfl

/-- Claim C2 (amended): `remediation_steps` is non-empty whenever the
result does not come from the combined path — the decomposed line parser
substitutes the one-element raw-response list and the fallback carries a
fixed four-step list — while the combined path mirrors the payload list
(possibly empty).  `risk_factors` enjoys no non-emptiness guarantee on any
path. -/
theorem remediation_nonempty_outside_combined (ag : Agent) (srv : Server) (f : Finding) :
    (analyze_finding ag srv f).remediation_steps ≠ [] ∨
      analyze_combined ag srv f = some (analyze_finding ag srv f) := by
  by_cases h : is_available ag = true
  · unfold analyze_finding
    simp only [h, if_true]
    cases hc : analyze_combined ag srv f with
    | none =>
      left
      exact parse_steps_ne_nil _
    | some a =>
      right
      rfl
  · left
    have hf : is_available ag = false := by
      cases hb : is_available ag
      · rfl
      · exact absurd hb h
    rw [analyze_finding_of_unavailable ag srv f hf]
    simp [generate_fallback_analysis]

/-- Claim C3 (counterexample): with every generate call raising a
transport error, the caller receives a confidence-0.85 analysis whose text
fields carry the error sentinel — the failure is not surfaced as a
lower-confidence synthetic result. -/
theorem generation_failure_surfaces_at_full_confidence :
    (analyze_finding availableAgent errServer sampleFinding).confidence_score = 0.85 ∧
      analyze_finding availableAgent errServer sampleFinding ≠
        generate_fallback_analysis sampleFinding ∧
      (analyze_finding availableAgent errServer sampleFinding).business_impact =
        "AI analysis failed: connection refused" := by
  refine ⟨rfl, ?_, rfl⟩
  intro h
  have hb := congrArg AIAnalysis.business_impact h
  exact absurd hb (by decide)

/-- Claim C3 (amended): a generation failure is caught inside the
inference client and converted to an error-message string, so no failure
ever propagates to the caller as an exception; when the combined call
fails, JSON decoding of the sentinel fails and the orchestrator falls back
to the decomposed strategy — which reports at confidence 0.85, so a
failure there is surfaced in the text of a full-confidence result, not as
a synthetic one (the 0.3 synthetic analysis arises only from an
unavailable agent). -/
theorem combined_failure_falls_back_to_decomposed (ag : Agent) (srv : Server)
    (f : Finding) (e : String) (hav : is_available ag = true)
    (herr : srv 0 (combined_prompt f) = GenResult.err e) :
    analyze_combined ag srv f = Option.none ∧
      analyze_finding ag srv f = analyze_decomposed ag srv f ∧
      (analyze_decomposed ag srv f).confidence_score = 0.85 := by
  have hcomb : analyze_combined ag srv f = Option.none := by
    unfold analyze_combined
    rw [herr]
    simp only [query_ai, hav, if_true]
    rw [jsonLoads_err_sentinel]
  refine ⟨hcomb, ?_, rfl⟩
  unfold analyze_finding
  simp only [hav, if_true, hcomb]

/-- Witness for `combined_failure_falls_back_to_decomposed` at a concrete
erroring server. -/
theorem combined_failure_falls_back_witness :
    analyze_combined availableAgent errServer sampleFinding = Option.none ∧
      analyze_finding availableAgent errServer sampleFinding =
        analyze_decomposed availableAgent errServer sampleFinding ∧
      (analyze_decomposed availableAgent errServer sampleFinding).confidence_score = 0.85 :=
  combined_failure_falls_back_to_decomposed availableAgent errServer sampleFinding
    "connection refused" rfl rfl

/-- Claim C4: when the agent is available and the combined call returns a
payload decoding to a JSON object whose analysis fields are strings or
arrays of non-blank strings (an absent or null key defaulting to empty),
`analyze_finding` returns confidence exactly 0.85 and the four fields
equal the payload's values after whitespace trimming. -/
theorem combined_success_returns_payload (ag : Agent) (srv : Server) (f : Finding)
    (fs : List (String × PyVal)) (bi te : String) (rs rfs : List String)
    (hav : is_available ag = true)
    (hjson : jsonLoads (query_ai ag (srv 0 (combined_prompt f))) = some (PyVal.dict fs))
    (hb : pyDictGet fs "business_impact" = PyVal.str bi ∨
      (pyDictGet fs "business_impact" = PyVal.null ∧ bi = ""))
    (ht : pyDictGet fs "technical_explanation" = PyVal.str te ∨
      (pyDictGet fs "technical_explanation" = PyVal.null ∧ te = ""))
    (hr : pyDictGet fs "remediation_steps" = PyVal.list (rs.map PyVal.str) ∨
      (pyDictGet fs "remediation_steps" = PyVal.null ∧ rs = []))
    (hf : pyDictGet fs "risk_factors" = PyVal.list (rfs.map PyVal.str) ∨
      (pyDictGet fs "risk_factors" = PyVal.null ∧ rfs = []))
    (hrs : ∀ s ∈ rs, pyStrip s ≠ "") (hfs : ∀ s ∈ rfs, pyStrip s ≠ "") :
    analyze_finding ag srv f =
      AIAnalysis.mk (pyStrip bi) (pyStrip te) (rs.map pyStrip) (rfs.map pyStrip) 0.85 := by
  have hbi : pyOrEmptyStrip (pyDictGet fs "business_impact") = Except.ok (pyStrip bi) := by
    rcases hb with h | ⟨h, he⟩
    · rw [h]; exact pyOrEmptyStrip_str bi
    · rw [h, he]; rfl
  have hte : pyOrEmptyStrip (pyDictGet fs "technical_explanation") = Except.ok (pyStrip te) := by
    rcases ht with h | ⟨h, he⟩
    · rw [h]; exact pyOrEmptyStrip_str te
    · rw [h, he]; rfl
  have hre : pyListComp (pyDictGet fs "remediation_steps") = Except.ok (rs.map pyStrip) := by
    rcases hr with h | ⟨h, he⟩
    · rw [h]; exact pyListComp_strs rs hrs
    · rw [h, he]; rfl
  have hfa : pyListComp (pyDictGet fs "risk_factors") = Except.ok (rfs.map pyStrip) := by
    rcases hf with h | ⟨h, he⟩
    · rw [h]; exact pyListComp_strs rfs hfs
    · rw [h, he]; rfl
  have hcomb : analyze_combined ag srv f =
      some (AIAnalysis.mk (pyStrip bi) (pyStrip te) (rs.map pyStrip) (rfs.map pyStrip) 0.85) := by
    unfold analyze_combined
    dsimp only
    rw [hjson]
    dsimp only
    rw [hbi, hte, hre, hfa]
  unfold analyze_finding
  simp only [hav, if_true, hcomb]

/-- Witness for `combined_success_returns_payload`: a mocked server whose
combined payload has two string fields and a step array, with the
`risk_factors` key absent (defaulting to empty). -/
theorem combined_success_witness :
    analyze_finding availableAgent jsonServer sampleFinding =
      AIAnalysis.mk "BI text" "TE text" ["Step one", "2. Step two"] [] 0.85 :=
  combined_success_returns_payload availableAgent jsonServer sampleFinding
    [("business_impact", PyVal.str " BI text "), ("technical_explanation", PyVal.str "TE text"),
     ("remediation_steps", PyVal.list [PyVal.str "Step one", PyVal.str "2. Step two"])]
    " BI text " "TE text" ["Step one", "2. Step two"] []
    rfl rfl (Or.inl rfl) (Or.inl rfl) (Or.inl rfl) (Or.inr ⟨rfl, rfl⟩)
    (by decide) (by decide)

/-- The fallback business-impact text contains the severity token. -/
theorem pyIn_fallback_sev (sev ty : String) :
    pyIn sev ("This " ++ sev ++ " severity " ++ ty ++
      " requires attention to maintain security posture.") = true := by
  unfold pyIn
  have h := containsSub_append sev.data "This ".data
    (" severity ".data ++ (ty.data ++ " requires attention to maintain security posture.".data))
  simpa [String.data_append, List.append_assoc] using h

/-- The fallback business-impact text contains the type token. -/
theorem pyIn_fallback_ty (sev ty : String) :
    pyIn ty ("This " ++ sev ++ " severity " ++ ty ++
      " requires attention to maintain security posture.") = true := by
  unfold pyIn
  have h := containsSub_append ty.data
    ("This ".data ++ (sev.data ++ " severity ".data))
    (" requires attention to maintain security posture.".data)
  simpa [String.data_append, List.append_assoc] using h

/-- Claim C5: whenever the agent is unavailable, `analyze_finding` returns
the deterministic synthetic analysis: confidence exactly 0.3, a business
impact containing the finding's severity and type tokens (or their
defaults) verbatim, a technical explanation templated from the
description, the fixed four-item generic remediation list, and the risk
factors of the deterministic scan.  (With the agent available, the
decomposed body cannot raise for string-valued findings, so the `except`
route to the same fallback — total failure of both model strategies — is
unreachable in the embedding.) -/
theorem unavailable_returns_synthetic (ag : Agent) (srv : Server) (f : Finding)
    (h : is_available ag = false) :
    analyze_finding ag srv f = generate_fallback_analysis f ∧
      (analyze_finding ag srv f).confidence_score = 0.3 ∧
      pyIn (findingGetD f "severity" "Medium")
        (analyze_finding ag srv f).business_impact = true ∧
      pyIn (findingGetD f "type" "Security Issue")
        (analyze_finding ag srv f).business_impact = true ∧
      (analyze_finding ag srv f).technical_explanation =
        "Security issue detected: " ++ findingGetD f "description" "No details available" ∧
      (analyze_finding ag srv f).remediation_steps =
        ["Review the security finding details", "Consult AWS security best practices",
         "Implement appropriate security controls", "Validate and test the remediation"] ∧
      (analyze_finding ag srv f).risk_factors = identify_risk_factors f := by
  rw [analyze_finding_of_unavailable ag srv f h]
  refine ⟨rfl, rfl, ?_, ?_, rfl, rfl, rfl⟩
  · exact pyIn_fallback_sev (findingGetD f "severity" "Medium")
      (findingGetD f "type" "Security Issue")
  · exact pyIn_fallback_ty (findingGetD f "severity" "Medium")
      (findingGetD f "type" "Security Issue")

/-- Witness for `unavailable_returns_synthetic` at the sample finding and
a connection-refused server. -/
theorem unavailable_returns_synthetic_witness :
    analyze_finding unavailableAgent errServer sampleFinding =
        generate_fallback_analysis sampleFinding ∧
      (analyze_finding unavailableAgent errServer sampleFinding).confidence_score = 0.3 ∧
      pyIn "High" (analyze_finding unavailableAgent errServer sampleFinding).business_impact
        = true ∧
      pyIn "iam_wildcard_policy"
        (analyze_finding unavailableAgent errServer sampleFinding).business_impact = true ∧
      (analyze_finding unavailableAgent errServer sampleFinding).technical_explanation =
        "Security issue detected: IAM role has wildcard permissions" ∧
      (analyze_finding unavailableAgent errServer sampleFinding).remediation_steps =
        ["Review the security finding details", "Consult AWS security best practices",
         "Implement appropriate security controls", "Validate and test the remediation"] ∧
      (analyze_finding unavailableAgent errServer sampleFinding).risk_factors =
        identify_risk_factors sampleFinding :=
  unavailable_returns_synthetic unavailableAgent errServer sampleFinding rfl

/-- Extracting names from registry entries of the form
`[{name: n} for n in names]` yields exactly the names. -/
theorem collectNames_tags (names : List String) :
    collectNames (names.map (fun n => PyVal.dict [("name", PyVal.str n)])) =
      Except.ok (names.map PyVal.str) := by
  induction names with
  | nil => rfl
  | cons n rest ih =>
    have h1 : pyContainsKeyName (PyVal.dict [("name", PyVal.str n)]) = Except.ok true := rfl
    have h2 : pyGetNameField (PyVal.dict [("name", PyVal.str n)]) =
        Except.ok (PyVal.str n) := rfl
    simp only [List.map_cons, collectNames, h1, h2, ih]
    simp

/-- Membership of a string value in a list of string values mirrors string
membership. -/
theorem contains_map_str (names : List String) (p : String) :
    (names.map PyVal.str).contains (PyVal.str p) = names.contains p := by
  induction names with
  | nil => rfl
  | cons n rest ih =>
    show ((p == n) || (rest.map PyVal.str).contains (PyVal.str p)) = ((p == n) || rest.contains p)
    rw [ih]

/-- A list of string values never contains the null value. -/
theorem contains_map_str_null (names : List String) :
    (names.map PyVal.str).contains PyVal.null = false := by
  induction names with
  | nil => rfl
  | cons n rest ih => exact ih

/-- Reduction of the initialization on a 200 registry answer listing the
given names: everything up to the name extraction computes. -/
theorem initialize_tags_reduction (cfg : AIAgentConfig) (names : List String) :
    initialize_ollama cfg (tagsEnv names) =
      (match collectNames (names.map (fun n => PyVal.dict [("name", PyVal.str n)])) with
       | Except.error _ => (⟨false, true⟩, cfg)
       | Except.ok modelNames =>
         match
           (if modelNames.contains (PyVal.str cfg.model) then PyVal.str cfg.model
            else if modelNames.contains
                (match cfg.fallback_model with
                 | some fb => PyVal.str fb
                 | Option.none => PyVal.null) then
              (match cfg.fallback_model with
               | some fb => PyVal.str fb
               | Option.none => PyVal.null)
            else PyVal.null) with
         | PyVal.str s =>
           if s != "" then (⟨true, true⟩, { cfg with model := s })
           else (⟨false, true⟩, cfg)
         | _ => (⟨false, true⟩, cfg)) := rfl

/-- Claim C6: model resolution at initialization prefers the configured
primary model when the server lists it, else the configured fallback, and
otherwise leaves the agent unavailable; the resolved name is recorded in
the configuration. -/
theorem model_resolution_primary_then_fallback (cfg : AIAgentConfig) (names : List String)
    (fb : String) (hfbm : cfg.fallback_model = some fb)
    (hp : cfg.model ≠ "") (hfb : fb ≠ "") :
    (cfg.model ∈ names →
      initialize_ollama cfg (tagsEnv names) = (⟨true, true⟩, cfg)) ∧
    (cfg.model ∉ names → fb ∈ names →
      initialize_ollama cfg (tagsEnv names) = (⟨true, true⟩, { cfg with model := fb })) ∧
    (cfg.model ∉ names → fb ∉ names →
      initialize_ollama cfg (tagsEnv names) = (⟨false, true⟩, cfg)) := by
  rw [initialize_tags_reduction, collectNames_tags, hfbm]
  dsimp only
  refine ⟨?_, ?_, ?_⟩
  · intro hmem
    have hc : names.contains cfg.model = true := List.elem_iff.mpr hmem
    rw [contains_map_str, hc]
    simp only [if_true]
    have hs : (cfg.model != "") = true := by
      simp [bne_iff_ne, hp]
    simp only [hs, if_true]
    rw [← hfbm]
  · intro hnp hmem
    have hcp : names.contains cfg.model = false := by
      rw [← Bool.not_eq_true]
      intro hc
      exact hnp (List.elem_iff.mp hc)
    have hcf : names.contains fb = true := List.elem_iff.mpr hmem
    rw [contains_map_str, hcp, contains_map_str, hcf]
    simp only [Bool.false_eq_true, if_false, if_true]
    have hs : (fb != "") = true := by
      simp [bne_iff_ne, hfb]
    simp only [hs, if_true]
  · intro hnp hnf
    have hcp : names.contains cfg.model = false := by
      rw [← Bool.not_eq_true]
      intro hc
      exact hnp (List.elem_iff.mp hc)
    have hcf : names.contains fb = false := by
      rw [← Bool.not_eq_true]
      intro hc
      exact hnf (List.elem_iff.mp hc)
    rw [contains_map_str, hcp, contains_map_str, hcf]
    simp only [Bool.false_eq_true, if_false]

/-- Witness for `model_resolution_primary_then_fallback`: registry listing
models a and b, configured primary c, fallback b resolves to b with
availability true; with neither listed the agent stays unavailable. -/
theorem model_resolution_witness :
    initialize_ollama sampleConfig (tagsEnv ["a", "b"]) =
        (⟨true, true⟩, { sampleConfig with model := "b" }) ∧
      initialize_ollama sampleConfig (tagsEnv ["x", "y"]) = (⟨false, true⟩, sampleConfig) :=
  ⟨(model_resolution_primary_then_fallback sampleConfig ["a", "b"] "b" rfl
      (by decide) (by decide)).2.1 (by decide) (by decide),
   (model_resolution_primary_then_fallback sampleConfig ["x", "y"] "b" rfl
      (by decide) (by decide)).2.2 (by decide) (by decide)⟩

/-- Claim C7: the deterministic risk-factor scan — a pure function of the
finding alone, so independent of model availability — flags overly broad
permissions whenever the lower-cased serialized finding contains a
wildcard marker, and flags high severity whenever the severity value is
critical or high case-insensitively. -/
theorem risk_factor_scan_keywords (f : Finding) :
    ((pyIn "wildcard" (pyLower (pyStrDict f)) = true ∨
        pyIn "*:*" (pyLower (pyStrDict f)) = true) →
      "Overly broad permissions" ∈ identify_risk_factors f) ∧
    (∀ sv, findingGet? f "severity" = some sv →
      (pyLower sv = "critical" ∨ pyLower sv = "high") →
      "High severity security vulnerability" ∈ identify_risk_factors f) := by
  constructor
  · intro h
    unfold identify_risk_factors
    have hcond : (pyIn "wildcard" (pyLower (pyStrDict f)) ||
        pyIn "*:*" (pyLower (pyStrDict f))) = true := by
      rcases h with h | h <;> simp [h]
    simp [hcond]
  · intro sv hsv hlow
    unfold identify_risk_factors
    rw [hsv]
    simp only [Option.getD_some]
    have hcond : (["critical", "high"] : List String).contains (pyLower sv) = true := by
      rcases hlow with h | h <;> rw [h] <;> decide
    simp [hcond]
    exact hlow

/-- Witness for `risk_factor_scan_keywords` at the sample finding, whose
description mentions wildcard permissions and whose severity is High. -/
theorem risk_factor_scan_witness :
    "Overly broad permissions" ∈ identify_risk_factors sampleFinding ∧
      "High severity security vulnerability" ∈ identify_risk_factors sampleFinding :=
  ⟨(risk_factor_scan_keywords sampleFinding).1 (Or.inl (by decide)),
   (risk_factor_scan_keywords sampleFinding).2 "High" (by decide) (Or.inr (by decide))⟩

/-- Claim C8 (counterexample): the response consisting of the single
marker character qualifies as a step line, but its text strips to nothing
and the parser discards it, returning the raw-response fallback — while
the claimed description keeps it as an empty step. -/
theorem qualifying_line_can_be_dropped :
    parse_steps "-" = ["-"] ∧ parse_steps_claimed "-" = [""] := ⟨rfl, rfl⟩

/-- The step accumulation equals the claimed filter pipeline extended with
the discard of blank steps. -/
theorem filterMap_steps_eq (lines : List String) :
    lines.filterMap (fun raw =>
      if lineQualifies (pyStrip raw) then
        if stripStepMarks (pyStrip raw) != "" then some (stripStepMarks (pyStrip raw))
        else Option.none
      else Option.none) =
    (((lines.map pyStrip).filter lineQualifies).map stripStepMarks).filter
      (fun s => s != "") := by
  induction lines with
  | nil => rfl
  | cons raw rest ih =>
    by_cases hq : lineQualifies (pyStrip raw) = true
    · by_cases hne : stripStepMarks (pyStrip raw) = ""
      · simp [List.filterMap_cons, List.filter_cons, hq, hne]
        simpa using ih
      · simp [List.filterMap_cons, List.filter_cons, hq, hne]
        simpa using ih
    · rw [Bool.not_eq_true] at hq
      simp [List.filterMap_cons, List.filter_cons, hq]
      simpa using ih

/-- Claim C8 (amended): each line that, after trimming, starts with a
digit, a dash or a bullet glyph — and whose remainder after stripping the
leading numbering and marker characters is non-empty — becomes a step in
line order; every other line is discarded; when no step survives
(including when all qualifying lines strip to nothing), the result is the
single-element list containing the entire raw response. -/
theorem parse_steps_matches_amended (response : String) :
    parse_steps response = parse_steps_amended response := by
  unfold parse_steps parse_steps_amended
  dsimp only
  rw [filterMap_steps_eq]

/-- Claim C9: the only mutation the core performs on external state is the
rewrite of the configuration's `model` field, at most once and only inside
initialization — every outcome of `initialize_ollama` leaves the
configuration unchanged or changes exactly that field — and the finding
mapping handed to `analyze_finding` is returned unchanged (the analysis
path contains no write into it). -/
theorem only_mutation_is_model_field :
    (∀ cfg env, (initialize_ollama cfg env).2 = cfg ∨
      ∃ m, (initialize_ollama cfg env).2 = { cfg with model := m }) ∧
    (∀ ag srv f, analyze_finding_state ag srv f = (analyze_finding ag srv f, f)) := by
  constructor
  · intro cfg env
    cases env with
    | noOllamaLib => left; rfl
    | requestRaised m => left; rfl
    | response status body =>
      unfold initialize_ollama
      by_cases hst : (status == 200) = true
      · simp only [hst, if_true]
        cases body with
        | none => left; rfl
        | some bj =>
          dsimp only
          split
          · split
            · left; rfl
            · split
              · split
                · right; exact ⟨_, rfl⟩
                · left; rfl
              · left; rfl
          · left; rfl
      · rw [Bool.not_eq_true] at hst
        simp only [hst, Bool.false_eq_true, if_false]
        left
        trivial
  · intro ag srv f
    rfl

/-- Claim C10: a combined response decoding to valid JSON whose top-level
value is not an object makes the combined path report no result instead of
raising, and the orchestrator proceeds to the decomposed strategy. -/
theorem combined_non_object_yields_no_result (ag : Agent) (srv : Server) (f : Finding)
    (v : PyVal) (hav : is_available ag = true)
    (hjson : jsonLoads (query_ai ag (srv 0 (combined_prompt f))) = some v)
    (hnd : v.isDict = false) :
    analyze_combined ag srv f = Option.none ∧
      analyze_finding ag srv f = analyze_decomposed ag srv f := by
  have hcomb : analyze_combined ag srv f = Option.none := by
    unfold analyze_combined
    dsimp only
    rw [hjson]
    cases v with
    | dict fs => simp [PyVal.isDict] at hnd
    | null => rfl
    | bool b => rfl
    | num m e => rfl
    | str s => rfl
    | list xs => rfl
  refine ⟨hcomb, ?_⟩
  unfold analyze_finding
  simp only [hav, if_true, hcomb]

/-- Witness for `combined_non_object_yields_no_result` at a server whose
combined answer is a JSON array. -/
theorem combined_non_object_witness :
    analyze_combined availableAgent listServer sampleFinding = Option.none ∧
      analyze_finding availableAgent listServer sampleFinding =
        analyze_decomposed availableAgent listServer sampleFinding :=
  combined_non_object_yields_no_result availableAgent listServer sampleFinding
    (PyVal.list [PyVal.num 1 0, PyVal.num 2 0]) rfl rfl rfl
